import Mathlib

/-!
Verification development for the StanceScope repository.

JavaScript strings are modelled as lists of UTF-16 code units (`List Nat`);
every string literal appearing in the sources lies in the Basic Multilingual
Plane outside the surrogate range, so code units coincide with code points.
Fallible code is modelled with `Except`/`Option`; a thrown JavaScript
exception is an `Except.error`.
-/

/-- Code units of a Lean string literal (all literals used are BMP,
non-surrogate, so UTF-16 units equal code points). -/
def strCU (s : String) : List Nat := s.data.map Char.toNat

namespace StanceScope

/-- A thrown JavaScript exception: either `new Error(msg)` or a `TypeError`
raised by accessing a property of `undefined`. -/
inductive JSErr where
  | err (msg : List Nat)
  | typeError
deriving DecidableEq, Repr

/-! ### geminiService.ts — sentiment-name rewrite inside `analyzeComments`

The map body is
```
const match = item.name.match(/意見(\d+)を支持/);
if (match) ... return ({ ...item, name: `意見 ` + letter }) ... return item;
```
modelled by `rewriteName` / `rewriteBucket` below.
-/

/-- `\d` of the JavaScript regex: ASCII digit code units. -/
def isDigitCU (u : Nat) : Bool := 48 ≤ u && u ≤ 57

/-- Numeric value of a digit-code-unit string, as computed by
`parseInt(ds, 10)` on a string of ASCII digits. -/
def digitsToNat (ds : List Nat) : Nat :=
  ds.foldl (fun a u => 10 * a + (u - 48)) 0

/-- Attempt of the regex `意見(\d+)を支持` at one start position: literal
`意見` (U+610F U+898B), a maximal nonempty run of digits (greedy `\d+`
followed by the non-digit `を` admits no shorter run), then literal
`を支持` (U+3092 U+652F U+6301).  Returns the captured digit run. -/
def matchOpinionAt (s : List Nat) : Option (List Nat) :=
  match s with
  | c1 :: c2 :: rest =>
    if c1 == 0x610F && c2 == 0x898B then
      let ds := rest.takeWhile isDigitCU
      if ds.isEmpty then none
      else if (rest.drop ds.length).take 3 == [0x3092, 0x652F, 0x6301] then some ds
      else none
    else none
  | _ => none

/-- `name.match(/意見(\d+)を支持/)`: leftmost match, returning the capture
group (the digit run). -/
def findOpinion : List Nat → Option (List Nat)
  | [] => none
  | u :: rest =>
    match matchOpinionAt (u :: rest) with
    | some ds => some ds
    | none => findOpinion rest

/-- The name computed for one sentiment bucket:
`parseInt(match[1], 10)`, `index = N - 1`,
`String.fromCharCode(65 + index)` (`ToUint16`, i.e. mod 2^16), new name
`意見 ` followed by that letter; a non-matching name is returned as is. -/
def rewriteName (name : List Nat) : List Nat :=
  match findOpinion name with
  | some ds =>
    let index : Int := (digitsToNat ds : Int) - 1
    let code : Nat := (65 + index).toNat % 65536
    strCU "意見 " ++ [code]
  | none => name

/-- A sentiment bucket as fixed by the response schema:
`{ name: string, count: integer }`. -/
structure Bucket where
  name : List Nat
  count : Int
deriving DecidableEq, Repr

/-- `{ ...item, name: rewritten }` on one bucket: only `name` changes. -/
def rewriteBucket (item : Bucket) : Bucket :=
  { item with name := rewriteName item.name }

/-- `sentiment.map(item => ...)` — the whole rewrite step. -/
def rewriteSentiment (sentiment : List Bucket) : List Bucket :=
  sentiment.map rewriteBucket

/-! ### geminiService.ts — response-format check and catch-all

```
const parsedJson = JSON.parse(jsonText);
if (!parsedJson.summary || !Array.isArray(parsedJson.sentiment)
    || !Array.isArray(parsedJson.viewpoints)) {
  throw new Error("AI response is not in the expected format.");
}
... map over sentiment ...
} catch (error) { ... throw new Error("AIによるコメント分析に失敗しました。"); }
```
The parsed JSON value is modelled by `JSValue`; numbers are integers
(numeric NaN does not arise in these paths).
-/

/-- A parsed JavaScript value. -/
inductive JSValue where
  | undef
  | null
  | bool (b : Bool)
  | num (n : Int)
  | str (s : List Nat)
  | arr (items : List JSValue)
  | obj (fields : List (List Nat × JSValue))

/-- JavaScript truthiness of a value (as used by `!parsedJson.summary`). -/
def truthy : JSValue → Bool
  | .undef => false
  | .null => false
  | .bool b => b
  | .num n => n != 0
  | .str s => !s.isEmpty
  | .arr _ => true
  | .obj _ => true

/-- `Array.isArray`. -/
def isArray : JSValue → Bool
  | .arr _ => true
  | _ => false

/-- Property read on an object's field list: first matching key, else
`undefined`. -/
def jsGetField (fields : List (List Nat × JSValue)) (key : List Nat) : JSValue :=
  match fields with
  | [] => .undef
  | (k, v) :: rest => if k == key then v else jsGetField rest key

/-- `{ ...item, name: v }`: the existing `name` entry keeps its position and
receives the new value. -/
def jsSetField (fields : List (List Nat × JSValue)) (key : List Nat)
    (v : JSValue) : List (List Nat × JSValue) :=
  fields.map (fun kv => if kv.1 == key then (kv.1, v) else kv)

/-- One iteration of the sentiment `map` at the JavaScript level:
`item.name.match(...)` throws a `TypeError` unless `item` is an object whose
`name` is a string; otherwise the bucket is rewritten via `rewriteName`. -/
def jsRewriteItem (item : JSValue) : Except JSErr JSValue :=
  match item with
  | .obj fields =>
    match jsGetField fields (strCU "name") with
    | .str nm => .ok (.obj (jsSetField fields (strCU "name") (.str (rewriteName nm))))
    | _ => .error .typeError
  | _ => .error .typeError

/-- The `map` over all sentiment items, propagating a thrown exception. -/
def jsRewriteItems : List JSValue → Except JSErr (List JSValue)
  | [] => .ok []
  | item :: rest => do
    let v ← jsRewriteItem item
    let vs ← jsRewriteItems rest
    .ok (v :: vs)

/-- The three top-level fields of the parsed LLM response, as read by
`parsedJson.summary` / `.sentiment` / `.viewpoints` (`undef` when absent). -/
structure ParsedJson where
  summary : JSValue
  sentiment : JSValue
  viewpoints : JSValue

def malformedMsg : List Nat := strCU "AI response is not in the expected format."

def genericMsg : List Nat := strCU "AIによるコメント分析に失敗しました。"

/-- The body of the `try` block after `JSON.parse` succeeded: the format
check, then the sentiment rewrite, then `{ ...parsedJson, sentiment }`. -/
def analyzeBody (p : ParsedJson) : Except JSErr ParsedJson :=
  if !truthy p.summary || !isArray p.sentiment || !isArray p.viewpoints then
    .error (.err malformedMsg)
  else
    match p.sentiment with
    | .arr items =>
      match jsRewriteItems items with
      | .ok items2 => .ok ⟨p.summary, .arr items2, p.viewpoints⟩
      | .error e => .error e
    | _ => .error .typeError

/-- `analyzeComments` as observed by the caller, from the parsed response
on: the surrounding `catch` turns every exception raised in the `try` block
into the single generic error. -/
def analyzeComments (p : ParsedJson) : Except (List Nat) ParsedJson :=
  match analyzeBody p with
  | .ok v => .ok v
  | .error _ => .error genericMsg

/-! ### youtubeService.ts — `extractVideoId`

```
const regex = /(?:youtube\.com\/(?:[^\/]+\/.+\/|(?:v|e(?:mbed)?)\/|.*[?&]v=)|youtu\.be\/)([^"&?\/\s]{11})/;
const match = url.match(regex);
return match ? match[1] : null;
```
The single pattern is embedded as an explicit backtracking matcher with
JavaScript semantics: leftmost start position wins; at one position
alternatives are tried left to right and greedy quantifiers longest first.
-/

/-- JavaScript `\s` (ECMAScript WhiteSpace and LineTerminator). -/
def jsSpace (u : Nat) : Bool :=
  u == 9 || u == 10 || u == 11 || u == 12 || u == 13 || u == 32 ||
  u == 160 || u == 0x1680 || (0x2000 ≤ u && u ≤ 0x200A) ||
  u == 0x2028 || u == 0x2029 || u == 0x202F || u == 0x205F ||
  u == 0x3000 || u == 0xFEFF

/-- The identifier class `[^"&?\/\s]`. -/
def validIdCU (u : Nat) : Bool :=
  !(u == 34 || u == 38 || u == 63 || u == 47 || jsSpace u)

/-- A line terminator, which `.` does not match. -/
def lineTerm (u : Nat) : Bool :=
  u == 10 || u == 13 || u == 0x2028 || u == 0x2029

/-- The class matched by `.`. -/
def dotCU (u : Nat) : Bool := !lineTerm u

/-- The capture group `([^"&?\/\s]{11})`: the next eleven code units, all in
the identifier class.  A fixed-count quantifier admits no backtracking. -/
def tryCapture (t : List Nat) : Option (List Nat) :=
  let c := t.take 11
  if c.length == 11 && c.all validIdCU then some c else none

/-- Backtracking over the greedy `.+` of the branch `[^\/]+\/.+\/`: `k + 1`
dot-class units, a `/`, then the capture; tried from the longest run down. -/
def goA1 : Nat → List Nat → Option (List Nat)
  | 0, _ => none
  | k + 1, t =>
    match (if t[k + 1]? == some 47 then tryCapture (t.drop (k + 2)) else none) with
    | some r => some r
    | none => goA1 k t

/-- `.+\/` followed by the capture, entered with the maximal dot run. -/
def tryDotSlash (t : List Nat) : Option (List Nat) :=
  goA1 (t.takeWhile dotCU).length t

/-- Branch `[^\/]+\/` then `.+\/`: the greedy `[^\/]+` is necessarily the
maximal run of non-`/` units (a shorter run would have to be followed by a
`/`, which contradicts maximality of none). -/
def tryA1 (t : List Nat) : Option (List Nat) :=
  let r := (t.takeWhile (fun u => u != 47)).length
  if r == 0 then none
  else
    match t[r]? with
    | some 47 => tryDotSlash (t.drop (r + 1))
    | _ => none

/-- Branch `(?:v|e(?:mbed)?)\/`: alternatives `v/`, `embed/` (greedy `?`
first), `e/`, each followed by the capture. -/
def tryA2 (t : List Nat) : Option (List Nat) :=
  match (if t.take 2 == [118, 47] then tryCapture (t.drop 2) else none) with
  | some r => some r
  | none =>
    match (if t.take 6 == strCU "embed/" then tryCapture (t.drop 6) else none) with
    | some r => some r
    | none =>
      if t.take 2 == [101, 47] then tryCapture (t.drop 2) else none

/-- `[?&]v=` at offset `k` of `t`. -/
def chkA3 (t : List Nat) (k : Nat) : Bool :=
  (t[k]? == some 63 || t[k]? == some 38) &&
  t[k + 1]? == some 118 && t[k + 2]? == some 61

/-- Backtracking over the greedy `.*` of the branch `.*[?&]v=`: `k`
dot-class units, then `[?&]v=`, then the capture; longest run first. -/
def goA3 : Nat → List Nat → Option (List Nat)
  | 0, t => if chkA3 t 0 then tryCapture (t.drop 3) else none
  | k + 1, t =>
    match (if chkA3 t (k + 1) then tryCapture (t.drop (k + 4)) else none) with
    | some r => some r
    | none => goA3 k t

/-- Branch `.*[?&]v=` followed by the capture. -/
def tryA3 (t : List Nat) : Option (List Nat) :=
  goA3 (t.takeWhile dotCU).length t

/-- The `youtube.com/` alternative with its three inner branches, in the
pattern's order. -/
def tryYoutube (s : List Nat) : Option (List Nat) :=
  if s.take 12 == strCU "youtube.com/" then
    let t := s.drop 12
    match tryA1 t with
    | some r => some r
    | none =>
      match tryA2 t with
      | some r => some r
      | none => tryA3 t
  else none

/-- The `youtu.be/` alternative. -/
def tryYoutuBe (s : List Nat) : Option (List Nat) :=
  if s.take 9 == strCU "youtu.be/" then tryCapture (s.drop 9) else none

/-- The whole pattern attempted at one start position. -/
def matchHere (s : List Nat) : Option (List Nat) :=
  match tryYoutube s with
  | some r => some r
  | none => tryYoutuBe s

/-- Leftmost search, as `String.prototype.match` performs it. -/
def searchFrom : List Nat → Option (List Nat)
  | [] => none
  | u :: rest =>
    match matchHere (u :: rest) with
    | some r => some r
    | none => searchFrom rest

/-- `extractVideoId`: the capture of the leftmost match, or `null`. -/
def extractVideoId (url : List Nat) : Option (List Nat) :=
  searchFrom url

/-! ### youtubeService.ts — `getVideoDetails`

```
const response = await fetch(url);
const data = await response.json();
if (data.items && data.items.length > 0) {
  const snippet = data.items[0].snippet;
  return { id: videoId, title: snippet.title,
           thumbnailUrl: snippet.thumbnails.high.url };
} else {
  if (data.error && data.error.errors[0].reason === 'keyInvalid') { throw ... }
  throw new Error('Video not found or API error.');
}
```
The parsed response body is the function's input here; the transport layer
is outside the embedded code.
-/

structure Thumbnail where
  url : List Nat
deriving DecidableEq, Repr

/-- `snippet.thumbnails`: the `high` variant may be absent. -/
structure Thumbnails where
  high : Option Thumbnail
  default : Option Thumbnail
deriving DecidableEq, Repr

structure Snippet where
  title : List Nat
  thumbnails : Thumbnails
deriving DecidableEq, Repr

structure VideoItem where
  snippet : Snippet
deriving DecidableEq, Repr

structure ApiErrorItem where
  reason : List Nat
deriving DecidableEq, Repr

/-- `data.error` of the platform API: `{ message, errors: [{reason}] }`. -/
structure ApiError where
  message : Option (List Nat)
  errors : List ApiErrorItem
deriving DecidableEq, Repr

/-- Parsed body of the metadata endpoint response. -/
structure MetadataResponse where
  items : Option (List VideoItem)
  error : Option ApiError
deriving DecidableEq, Repr

structure VideoDetails where
  id : List Nat
  title : List Nat
  thumbnailUrl : List Nat
deriving DecidableEq, Repr

def keyInvalidMsg : List Nat :=
  strCU "The provided API key is invalid for YouTube Data API."

def videoNotFoundMsg : List Nat := strCU "Video not found or API error."

/-- `getVideoDetails` on a parsed metadata response.  Reading
`snippet.thumbnails.high.url` with `high` absent, or `errors[0].reason` with
`errors` empty, throws a `TypeError`. -/
def getVideoDetails (videoId : List Nat) (data : MetadataResponse) :
    Except JSErr VideoDetails :=
  match data.items with
  | some (item :: _) =>
    match item.snippet.thumbnails.high with
    | some th => .ok ⟨videoId, item.snippet.title, th.url⟩
    | none => .error .typeError
  | _ =>
    match data.error with
    | some e =>
      match e.errors with
      | [] => .error .typeError
      | it :: _ =>
        if it.reason == strCU "keyInvalid" then .error (.err keyInvalidMsg)
        else .error (.err videoNotFoundMsg)
    | none => .error (.err videoNotFoundMsg)

/-! ### youtubeService.ts — `getComments`

```
let comments = []; let nextPageToken = undefined;
do {
  const data = await (await fetch(url)).json();
  if (data.error) { ...classify and throw... }
  if (data.items) { comments = comments.concat(items.map(textDisplay)); }
  nextPageToken = data.nextPageToken;
} while (nextPageToken && comments.length < 200);
return comments;
```
The sequence of parsed page responses the server would deliver is the
input; the loop consumes one scripted response per iteration.  The trailing
`catch` rethrows `Error` instances unchanged, so it is the identity on
these outcomes.
-/

/-- One parsed page of the comment-listing endpoint: the extracted
`textDisplay` strings, the continuation token, and an optional error body. -/
structure Page where
  items : Option (List (List Nat))
  nextPageToken : Option (List Nat)
  error : Option ApiError
deriving DecidableEq, Repr

def commentsDisabledMsg : List Nat := strCU "Comments are disabled for this video."

def fetchCommentsFailedMsg : List Nat := strCU "Failed to fetch comments."

/-- The `if (data.error)` branch: `errors[0].reason` throws a `TypeError` on
an empty `errors` array; `message || "Failed to fetch comments."` falls back
on an absent or empty message. -/
def classifyCommentsError (e : ApiError) : JSErr :=
  match e.errors with
  | [] => .typeError
  | it :: _ =>
    if it.reason == strCU "commentsDisabled" then .err commentsDisabledMsg
    else if it.reason == strCU "keyInvalid" then .err keyInvalidMsg
    else
      match e.message with
      | some m => if m.isEmpty then .err fetchCommentsFailedMsg else .err m
      | none => .err fetchCommentsFailedMsg

/-- Outcome of `getComments` against a finite script of page responses.
`outOfPages` marks the model boundary: the loop would issue a request the
script does not cover. -/
inductive FetchOutcome where
  | ok (comments : List (List Nat))
  | error (e : JSErr)
  | outOfPages (comments : List (List Nat))
deriving DecidableEq, Repr

/-- The `do`/`while` loop, one scripted page per iteration. -/
def getCommentsLoop : List Page → List (List Nat) → FetchOutcome
  | [], acc => .outOfPages acc
  | p :: rest, acc =>
    match p.error with
    | some e => .error (classifyCommentsError e)
    | none =>
      let acc := acc ++ (match p.items with | some its => its | none => [])
      match p.nextPageToken with
      | none => .ok acc
      | some _ => if acc.length < 200 then getCommentsLoop rest acc else .ok acc

/-- `getComments` on a scripted sequence of page responses. -/
def getComments (pages : List Page) : FetchOutcome :=
  getCommentsLoop pages []

/-- The `smallest multiple of p that is ≥ c` of the pagination claim. -/
def smallestMultipleGE (p c : Nat) : Nat := p * ((c + p - 1) / p)

/-! ### App.tsx — `handleAnalyze`

The orchestrator is embedded as a pure transition on the component state.
The awaited service calls are oracles (`Env`): each holds the outcome the
corresponding call would produce in this run.  The returned step list
records which services were actually invoked.
-/

inductive AnalysisType where
  | normal
  | personality
  | both
deriving DecidableEq, Repr

/-- Which awaited service calls the run performed, in order. -/
inductive Step where
  | fetchDetails
  | fetchComments
  | runAnalyze
  | runAgent
deriving DecidableEq, Repr

/-- Result of `runPersonalityAnalysisAgent`; the orchestrator stores it
without inspecting it. -/
structure AgentOut where
  analysis : List Nat
  interactions : List Nat
  strategy : List Nat
deriving DecidableEq, Repr

/-- Outcomes of the awaited calls for one run; the error side carries the
thrown `Error`'s message. -/
structure Env where
  detailsResult : Except (List Nat) VideoDetails
  commentsResult : Except (List Nat) (List (List Nat))
  analyzeResult : Except (List Nat) ParsedJson
  agentResult : Except (List Nat) AgentOut

/-- The React component state touched by `handleAnalyze`. -/
structure AppState where
  videoUrl : List Nat
  isLoading : Bool
  error : Option (List Nat)
  analysisResult : Option ParsedJson
  videoDetails : Option VideoDetails
  personalityAnalysis : Option AgentOut
  agentWorking : Bool
  comments : List (List Nat)
  analysisType : AnalysisType

def urlEmptyMsg : List Nat := strCU "YouTube動画のURLを入力してください。"

def urlInvalidMsg : List Nat := strCU "有効なYouTube動画のURLを入力してください。"

def noCommentsMsg : List Nat := strCU "コメントが見つかりませんでした。分析を中止します。"

def agentFailedMsg : List Nat := strCU "性格診断分析に失敗しました。"

/-- The outer `catch`: `setError(`エラーが発生しました: ${err.message}`)`. -/
def errWrap (m : List Nat) : List Nat := strCU "エラーが発生しました: " ++ m

/-- Lines 110–121: the personality-agent block with its inner
`try`/`catch`/`finally`, followed by the outer `finally`. -/
def runAgentPhase (s : AppState) (env : Env) (log : List Step) :
    AppState × List Step :=
  match s.analysisType with
  | .normal => ({ s with isLoading := false }, log)
  | _ =>
    let s1 := { s with agentWorking := true }
    match env.agentResult with
    | .ok p =>
      ({ s1 with personalityAnalysis := some p, agentWorking := false,
                 isLoading := false }, log ++ [.runAgent])
    | .error _ =>
      ({ s1 with error := some agentFailedMsg, agentWorking := false,
                 isLoading := false }, log ++ [.runAgent])

/-- Lines 105–108: `analyzeComments` when the analysis type asks for it; a
thrown error reaches the outer `catch` and skips the agent block. -/
def runAnalysisPhase (s : AppState) (env : Env) (log : List Step) :
    AppState × List Step :=
  match s.analysisType with
  | .personality => runAgentPhase s env log
  | _ =>
    match env.analyzeResult with
    | .error m =>
      ({ s with error := some (errWrap m), isLoading := false },
       log ++ [.runAnalyze])
    | .ok r =>
      runAgentPhase { s with analysisResult := some r } env (log ++ [.runAnalyze])

/-- The `try` block from `getVideoDetails` on (lines 90–121), with the outer
`catch` and `finally`. -/
def runFetchPhase (s : AppState) (env : Env) : AppState × List Step :=
  match env.detailsResult with
  | .error m =>
    ({ s with error := some (errWrap m), isLoading := false }, [.fetchDetails])
  | .ok details =>
    let s1 := { s with videoDetails := some details }
    match env.commentsResult with
    | .error m =>
      ({ s1 with error := some (errWrap m), isLoading := false },
       [.fetchDetails, .fetchComments])
    | .ok fetched =>
      if fetched.length == 0 then
        ({ s1 with error := some noCommentsMsg, isLoading := false },
         [.fetchDetails, .fetchComments])
      else
        runAnalysisPhase { s1 with comments := fetched } env
          [.fetchDetails, .fetchComments]

/-- `handleAnalyze` (App.tsx lines 72–131).  The two validation failures
return before the loading flag is set and before any previous results are
cleared; a successful validation clears the previous run's results, then
runs the pipeline. -/
def handleAnalyze (s : AppState) (env : Env) : AppState × List Step :=
  if s.videoUrl.isEmpty then ({ s with error := some urlEmptyMsg }, [])
  else
    match extractVideoId s.videoUrl with
    | none => ({ s with error := some urlInvalidMsg }, [])
    | some _ =>
      let s1 := { s with isLoading := true, error := none,
                         analysisResult := none, videoDetails := none,
                         personalityAnalysis := none }
      runFetchPhase s1 env

/-! ## Helper lemmas -/

/-- A list all of whose elements satisfy `p` is its own `takeWhile`. -/
theorem takeWhile_of_all {p : Nat → Bool} :
    ∀ {l : List Nat}, (∀ a ∈ l, p a = true) → l.takeWhile p = l := by
  intro l h
  induction l with
  | nil => rfl
  | cons a t ih =>
    have ha := h a (List.mem_cons_self a t)
    simp [List.takeWhile, ha]
    exact fun b hb => h b (List.mem_cons_of_mem a hb)

/-! ## C1, C9, C10 — the sentiment-name rewrite -/

/-- A rewritten name `意見 ` + letter never matches the numeric pattern
again, whatever the letter code unit is. -/
theorem findOpinion_rewritten (code : Nat) :
    findOpinion (strCU "意見 " ++ [code]) = none := by
  show findOpinion [0x610F, 0x898B, 0x20, code] = none
  simp [findOpinion, matchOpinionAt, List.takeWhile, isDigitCU]

/-- The per-name rewrite is idempotent. -/
theorem rewriteName_idem (name : List Nat) :
    rewriteName (rewriteName name) = rewriteName name := by
  cases h : findOpinion name with
  | none => simp [rewriteName, h]
  | some ds => simp [rewriteName, h, findOpinion_rewritten]

theorem rewriteBucket_idem (b : Bucket) :
    rewriteBucket (rewriteBucket b) = rewriteBucket b := by
  cases b
  simp [rewriteBucket, rewriteName_idem]

/-- C9: the sentiment-name rewrite step of `analyzeComments` is idempotent:
re-applying the rewrite to an already-rewritten bucket list changes nothing,
because the numeric pattern `意見Nを支持` matches no rewritten name. -/
theorem rewriteSentiment_idempotent (sentiment : List Bucket) :
    rewriteSentiment (rewriteSentiment sentiment) = rewriteSentiment sentiment := by
  induction sentiment with
  | nil => rfl
  | cons b t ih =>
    simp [rewriteSentiment, rewriteBucket_idem]

/-- C10: the rewrite step changes only the `name` field: the output list has
the same length, the bucket at each index is the rewrite of the input bucket
at the same index (same order), and every bucket's `count` is unchanged. -/
theorem rewriteSentiment_frame (sentiment : List Bucket) :
    (rewriteSentiment sentiment).length = sentiment.length
    ∧ (∀ i : Nat, (rewriteSentiment sentiment)[i]? = sentiment[i]?.map rewriteBucket)
    ∧ (∀ i : Nat, ((rewriteSentiment sentiment)[i]?.map Bucket.count) =
        (sentiment[i]?.map Bucket.count)) := by
  refine ⟨by simp [rewriteSentiment], fun i => by simp [rewriteSentiment], fun i => ?_⟩
  simp only [rewriteSentiment, List.getElem?_map, Option.map_map]
  cases sentiment[i]? with
  | none => rfl
  | some b => simp [Function.comp, rewriteBucket]

/-- The numeric opinion pattern `意見` + digits + `を支持` is found, and the
capture is exactly the digit run. -/
theorem findOpinion_numeric (ds : List Nat) (h1 : ds ≠ [])
    (h2 : ds.all isDigitCU = true) :
    findOpinion (strCU "意見" ++ ds ++ strCU "を支持") = some ds := by
  have hall : ∀ a ∈ ds, isDigitCU a = true := List.all_eq_true.mp h2
  have htw : (ds ++ strCU "を支持").takeWhile isDigitCU = ds := by
    rw [List.takeWhile_append_of_pos hall]
    have : (strCU "を支持").takeWhile isDigitCU = [] := by decide
    simp [this]
  show findOpinion (0x610F :: 0x898B :: (ds ++ strCU "を支持")) = some ds
  have hne : (ds ++ strCU "を支持") ≠ [] := by
    cases ds with
    | nil => exact absurd rfl h1
    | cons a t => simp
  obtain ⟨a, t, hat⟩ : ∃ a t, ds ++ strCU "を支持" = a :: t := by
    cases hds : ds ++ strCU "を支持" with
    | nil => exact absurd hds hne
    | cons a t => exact ⟨a, t, rfl⟩
  rw [hat]
  show (match matchOpinionAt (0x610F :: 0x898B :: a :: t) with
        | some ds => some ds
        | none => findOpinion (0x898B :: a :: t)) = some ds
  have hmatch : matchOpinionAt (0x610F :: 0x898B :: a :: t) = some ds := by
    rw [show (a :: t) = ds ++ strCU "を支持" from hat.symm]
    simp only [matchOpinionAt]
    rw [if_pos (by decide)]
    simp only [htw]
    rw [if_neg (by simp [List.isEmpty_iff, h1])]
    rw [List.drop_left' rfl]
    rw [if_pos (by decide)]
  rw [hmatch]

/-- C1: for every sentiment bucket whose name is the 1-based numeric form
`意見Nを支持` (digit string `ds`, value `N = digitsToNat ds`, here with
`1 ≤ N ≤ 26` so that the letter is an actual capital letter), the rewrite
step of `analyzeComments` renames it to `意見 ` + the character with code
`65 + (N - 1)` and keeps its count; every bucket whose name does not match
the pattern (e.g. `中立/その他`) is returned unchanged. -/
theorem rewriteBucket_spec (c : Int) (ds : List Nat) (h1 : ds ≠ [])
    (h2 : ds.all isDigitCU = true) (h3 : 1 ≤ digitsToNat ds)
    (h4 : digitsToNat ds ≤ 26) :
    rewriteBucket ⟨strCU "意見" ++ ds ++ strCU "を支持", c⟩ =
      ⟨strCU "意見 " ++ [65 + (digitsToNat ds - 1)], c⟩
    ∧ (∀ (nm : List Nat) (c2 : Int), findOpinion nm = none →
        rewriteBucket ⟨nm, c2⟩ = ⟨nm, c2⟩)
    ∧ rewriteBucket ⟨strCU "中立/その他", c⟩ = ⟨strCU "中立/その他", c⟩ := by
  refine ⟨?_, fun nm c2 hn => by simp [rewriteBucket, rewriteName, hn], ?_⟩
  · have hf := findOpinion_numeric ds h1 h2
    simp only [rewriteBucket, rewriteName, hf]
    have harith : ((65 : Int) + ((digitsToNat ds : Int) - 1)).toNat % 65536 =
        65 + (digitsToNat ds - 1) := by omega
    simp [harith]
  · have hn : findOpinion (strCU "中立/その他") = none := by decide
    simp [rewriteBucket, rewriteName, hn]

/-- Witness for C1 at `N = 1` (name `意見1を支持` becomes `意見 A`). -/
theorem rewriteBucket_spec_witness :
    rewriteBucket ⟨strCU "意見" ++ [49] ++ strCU "を支持", 7⟩ =
      ⟨strCU "意見 " ++ [65 + (digitsToNat [49] - 1)], 7⟩
    ∧ (∀ (nm : List Nat) (c2 : Int), findOpinion nm = none →
        rewriteBucket ⟨nm, c2⟩ = ⟨nm, c2⟩)
    ∧ rewriteBucket ⟨strCU "中立/その他", 7⟩ = ⟨strCU "中立/その他", 7⟩ :=
  rewriteBucket_spec 7 [49] (by decide) (by decide) (by decide) (by decide)

/-! ## C2 — the malformed-response error is swallowed by the catch-all -/

/-- C2 counterexample: a parsed response with no `summary` field makes
`analyzeComments` fail with the single generic message, not with the
distinct malformed-response message — the format-check error is raised
inside the `try` block and replaced by the surrounding `catch`, so the
caller cannot observe the distinct error. -/
theorem analyzeComments_malformed_not_distinct :
    analyzeComments ⟨JSValue.undef, JSValue.arr [], JSValue.arr []⟩ =
      Except.error genericMsg
    ∧ genericMsg ≠ malformedMsg := by
  exact ⟨rfl, by decide⟩

/-- C2 amended: when `summary` is falsy or `sentiment`/`viewpoints` is not
an array, the `try` body raises the distinct malformed-response error, but
the caller of `analyzeComments` observes only the generic analysis-failed
error — the same error surfaced for transport failures. -/
theorem analyzeComments_malformed_generic (p : ParsedJson)
    (h : truthy p.summary = false ∨ isArray p.sentiment = false ∨
         isArray p.viewpoints = false) :
    analyzeBody p = Except.error (JSErr.err malformedMsg)
    ∧ analyzeComments p = Except.error genericMsg := by
  have hc : (!truthy p.summary || !isArray p.sentiment || !isArray p.viewpoints) = true := by
    rcases h with h | h | h <;> simp [h]
  constructor
  · simp [analyzeBody, hc]
  · simp [analyzeComments, analyzeBody, hc]

/-- Witness for C2 at a response whose `sentiment` is not an array. -/
theorem analyzeComments_malformed_generic_witness :
    analyzeBody ⟨JSValue.str [84], JSValue.null, JSValue.arr []⟩ =
      Except.error (JSErr.err malformedMsg)
    ∧ analyzeComments ⟨JSValue.str [84], JSValue.null, JSValue.arr []⟩ =
      Except.error genericMsg :=
  analyzeComments_malformed_generic ⟨JSValue.str [84], JSValue.null, JSValue.arr []⟩
    (Or.inr (Or.inl (by decide)))

/-! ## C3 — thumbnail selection has no default-resolution fallback -/

/-- A metadata response whose first item has only a default-resolution
thumbnail. -/
def highMissingData : MetadataResponse :=
  ⟨some [⟨⟨strCU "T", ⟨none, some ⟨strCU "https://i.ytimg.com/vi/d/default.jpg"⟩⟩⟩⟩], none⟩

/-- C3 counterexample: on a non-empty response whose high-resolution
thumbnail is absent, `getVideoDetails` throws a `TypeError` (reading `.url`
of `undefined`) instead of falling back to the default-resolution URL. -/
theorem getVideoDetails_no_fallback :
    getVideoDetails (strCU "abc12345678") highMissingData =
      Except.error JSErr.typeError := rfl

/-- C3 amended: with a non-empty items list, `getVideoDetails` returns the
high-resolution thumbnail URL when that variant is present, and fails (with
a `TypeError`) when it is absent — it never reads the default-resolution
variant. -/
theorem getVideoDetails_thumbnail (vid title : List Nat) (thumbs : Thumbnails)
    (rest : List VideoItem) (data : MetadataResponse)
    (hi : data.items = some (⟨⟨title, thumbs⟩⟩ :: rest)) :
    (∀ th, thumbs.high = some th →
        getVideoDetails vid data = Except.ok ⟨vid, title, th.url⟩)
    ∧ (thumbs.high = none →
        getVideoDetails vid data = Except.error JSErr.typeError) := by
  constructor
  · intro th hth
    simp [getVideoDetails, hi, hth]
  · intro hth
    simp [getVideoDetails, hi, hth]

/-- Witness for C3 at a response carrying a high-resolution thumbnail. -/
theorem getVideoDetails_thumbnail_witness :
    (∀ th, (Thumbnails.mk (some ⟨strCU "H"⟩) none).high = some th →
        getVideoDetails (strCU "abc12345678")
          ⟨some [⟨⟨strCU "T", ⟨some ⟨strCU "H"⟩, none⟩⟩⟩], none⟩ =
          Except.ok ⟨strCU "abc12345678", strCU "T", th.url⟩)
    ∧ ((Thumbnails.mk (some ⟨strCU "H"⟩) none).high = none →
        getVideoDetails (strCU "abc12345678")
          ⟨some [⟨⟨strCU "T", ⟨some ⟨strCU "H"⟩, none⟩⟩⟩], none⟩ =
          Except.error JSErr.typeError) :=
  getVideoDetails_thumbnail (strCU "abc12345678") (strCU "T")
    ⟨some ⟨strCU "H"⟩, none⟩ [] _ rfl

/-! ## C7 — "video not found" is not distinct from generic API failures -/

/-- A transport-successful response with zero items and no error body. -/
def zeroItemsData : MetadataResponse := ⟨some [], none⟩

/-- A failed API response (no items, an error body whose reason is not
`keyInvalid`). -/
def apiFailureData : MetadataResponse :=
  ⟨none, some ⟨some (strCU "The request cannot be completed."), [⟨strCU "quotaExceeded"⟩]⟩⟩

/-- C7 counterexample: a zero-item success and a non-`keyInvalid` API
failure surface the *same* error value `Video not found or API error.` —
the zero-item error is not distinct from API-failure errors. -/
theorem getVideoDetails_notFound_not_distinct :
    getVideoDetails (strCU "abc12345678") zeroItemsData =
      Except.error (JSErr.err videoNotFoundMsg)
    ∧ getVideoDetails (strCU "abc12345678") apiFailureData =
      Except.error (JSErr.err videoNotFoundMsg) :=
  ⟨rfl, rfl⟩

/-- C7 amended: with zero result items, `getVideoDetails` throws the fixed
message `Video not found or API error.` — shared with non-`keyInvalid` API
failures rather than distinct from them; only an error body whose first
reason is `keyInvalid` produces a different (invalid-credential) error. -/
theorem getVideoDetails_zero_items (vid : List Nat) (data : MetadataResponse)
    (hz : data.items = some [] ∨ data.items = none) :
    (data.error = none →
        getVideoDetails vid data = Except.error (JSErr.err videoNotFoundMsg))
    ∧ (∀ msg it rest, data.error = some ⟨msg, it :: rest⟩ →
        it.reason ≠ strCU "keyInvalid" →
        getVideoDetails vid data = Except.error (JSErr.err videoNotFoundMsg))
    ∧ (∀ msg it rest, data.error = some ⟨msg, it :: rest⟩ →
        it.reason = strCU "keyInvalid" →
        getVideoDetails vid data = Except.error (JSErr.err keyInvalidMsg)) := by
  refine ⟨fun he => ?_, fun msg it rest he hr => ?_, fun msg it rest he hr => ?_⟩
  · rcases hz with hz | hz <;> simp [getVideoDetails, hz, he]
  · have : (it.reason == strCU "keyInvalid") = false := beq_eq_false_iff_ne.mpr hr
    rcases hz with hz | hz <;> simp [getVideoDetails, hz, he, this]
  · have : (it.reason == strCU "keyInvalid") = true := beq_iff_eq.mpr hr
    rcases hz with hz | hz <;> simp [getVideoDetails, hz, he, this]

/-- Witness for C7 at a zero-item response with no error body. -/
theorem getVideoDetails_zero_items_witness :
    ((zeroItemsData.error = none →
        getVideoDetails (strCU "xyz98765432") zeroItemsData =
          Except.error (JSErr.err videoNotFoundMsg))
    ∧ (∀ msg it rest, zeroItemsData.error = some ⟨msg, it :: rest⟩ →
        it.reason ≠ strCU "keyInvalid" →
        getVideoDetails (strCU "xyz98765432") zeroItemsData =
          Except.error (JSErr.err videoNotFoundMsg))
    ∧ (∀ msg it rest, zeroItemsData.error = some ⟨msg, it :: rest⟩ →
        it.reason = strCU "keyInvalid" →
        getVideoDetails (strCU "xyz98765432") zeroItemsData =
          Except.error (JSErr.err keyInvalidMsg)))
    ∧ zeroItemsData.error = none :=
  ⟨getVideoDetails_zero_items (strCU "xyz98765432") zeroItemsData (Or.inl rfl), rfl⟩

/-! ## C6 — empty comment batch stops before analysis -/

/-- C6: in every run whose URL validates and whose comment fetch succeeds
with an empty batch, the orchestrator sets the distinct
`コメントが見つかりませんでした。分析を中止します。` error, the analyzer is
never invoked, and no analysis result is produced. -/
theorem handleAnalyze_empty_comments (s : AppState) (env : Env)
    (d : VideoDetails) (vid : List Nat)
    (h0 : s.videoUrl.isEmpty = false)
    (h1 : extractVideoId s.videoUrl = some vid)
    (h2 : env.detailsResult = Except.ok d)
    (h3 : env.commentsResult = Except.ok []) :
    (handleAnalyze s env).1.error = some noCommentsMsg
    ∧ Step.runAnalyze ∉ (handleAnalyze s env).2
    ∧ (handleAnalyze s env).1.analysisResult = none := by
  simp [handleAnalyze, h0, h1, runFetchPhase, h2, h3]

/-- Concrete state used by the orchestrator witnesses and counterexample. -/
def baseState : AppState :=
  ⟨strCU "https://youtu.be/dQw4w9WgXcQ", false, none, none, none, none, false,
   [], AnalysisType.normal⟩

def someDetails : VideoDetails :=
  ⟨strCU "dQw4w9WgXcQ", strCU "T", strCU "H"⟩

/-- Witness for C6: a concrete run with an empty fetched batch. -/
theorem handleAnalyze_empty_comments_witness :
    (handleAnalyze baseState
        ⟨Except.ok someDetails, Except.ok [], Except.error [], Except.error []⟩).1.error =
      some noCommentsMsg
    ∧ Step.runAnalyze ∉ (handleAnalyze baseState
        ⟨Except.ok someDetails, Except.ok [], Except.error [], Except.error []⟩).2
    ∧ (handleAnalyze baseState
        ⟨Except.ok someDetails, Except.ok [], Except.error [], Except.error []⟩).1.analysisResult =
      none :=
  handleAnalyze_empty_comments baseState
    ⟨Except.ok someDetails, Except.ok [], Except.error [], Except.error []⟩
    someDetails (strCU "dQw4w9WgXcQ") (by decide) (by decide) rfl rfl

/-! ## C8 — partial VideoDetails survives a failed step -/

/-- C8 counterexample: in a run where the metadata fetch succeeds and the
comment fetch then fails, the orchestrator enters the error state while the
current run's partial `VideoDetails` is still visible — the partial result
is not discarded, contradicting the claim. -/
theorem handleAnalyze_keeps_partial_details :
    (handleAnalyze baseState
        ⟨Except.ok someDetails, Except.error commentsDisabledMsg,
          Except.error [], Except.error []⟩).1.error =
      some (errWrap commentsDisabledMsg)
    ∧ (handleAnalyze baseState
        ⟨Except.ok someDetails, Except.error commentsDisabledMsg,
          Except.error [], Except.error []⟩).1.videoDetails = some someDetails := by
  constructor <;> rfl

/-- C8 amended: on a post-validation failure (here: the comment fetch), the
run enters the error state; the previous run's `AnalysisResult` and
personality result are indeed cleared at the start of the run (so they are
`none` even if the previous run had set them), but the current run's
partial `VideoDetails` remains visible alongside the error. -/
theorem handleAnalyze_error_frame (s : AppState) (env : Env)
    (d : VideoDetails) (m vid : List Nat)
    (h0 : s.videoUrl.isEmpty = false)
    (h1 : extractVideoId s.videoUrl = some vid)
    (h2 : env.detailsResult = Except.ok d)
    (h3 : env.commentsResult = Except.error m) :
    (handleAnalyze s env).1.error = some (errWrap m)
    ∧ (handleAnalyze s env).1.videoDetails = some d
    ∧ (handleAnalyze s env).1.analysisResult = none
    ∧ (handleAnalyze s env).1.personalityAnalysis = none
    ∧ (handleAnalyze s env).1.isLoading = false := by
  simp [handleAnalyze, h0, h1, runFetchPhase, h2, h3]

/-- Witness for C8: a failed re-run over a state still holding the previous
run's results. -/
theorem handleAnalyze_error_frame_witness :
    (handleAnalyze
        { baseState with analysisResult := some ⟨JSValue.str [], JSValue.arr [], JSValue.arr []⟩ }
        ⟨Except.ok someDetails, Except.error (strCU "boom"),
          Except.error [], Except.error []⟩).1.error =
      some (errWrap (strCU "boom"))
    ∧ (handleAnalyze
        { baseState with analysisResult := some ⟨JSValue.str [], JSValue.arr [], JSValue.arr []⟩ }
        ⟨Except.ok someDetails, Except.error (strCU "boom"),
          Except.error [], Except.error []⟩).1.videoDetails = some someDetails
    ∧ (handleAnalyze
        { baseState with analysisResult := some ⟨JSValue.str [], JSValue.arr [], JSValue.arr []⟩ }
        ⟨Except.ok someDetails, Except.error (strCU "boom"),
          Except.error [], Except.error []⟩).1.analysisResult = none
    ∧ (handleAnalyze
        { baseState with analysisResult := some ⟨JSValue.str [], JSValue.arr [], JSValue.arr []⟩ }
        ⟨Except.ok someDetails, Except.error (strCU "boom"),
          Except.error [], Except.error []⟩).1.personalityAnalysis = none
    ∧ (handleAnalyze
        { baseState with analysisResult := some ⟨JSValue.str [], JSValue.arr [], JSValue.arr []⟩ }
        ⟨Except.ok someDetails, Except.error (strCU "boom"),
          Except.error [], Except.error []⟩).1.isLoading = false :=
  handleAnalyze_error_frame
    { baseState with analysisResult := some ⟨JSValue.str [], JSValue.arr [], JSValue.arr []⟩ }
    ⟨Except.ok someDetails, Except.error (strCU "boom"), Except.error [], Except.error []⟩
    someDetails (strCU "boom") (strCU "dQw4w9WgXcQ") (by decide) (by decide) rfl rfl

/-! ## C4 — pagination stops at the cap without trimming -/

/-- C4: for a scripted listing in which every non-final page is error-free,
carries a continuation token and exactly `P = 100` items, and the final page
is error-free, token-free and carries `l` items with `l ≤ 100`,
`getComments` succeeds and returns exactly
`min(totalAvailable, smallest multiple of 100 that is ≥ 200)` comments: it
stops as soon as a page yields no token or the accumulated count reaches
200, and it never fetches an extra page to trim the batch to exactly 200. -/
theorem getComments_pagination (ps : List Page) (lits : List (List Nat))
    (hps : ∀ p ∈ ps, p.error = none
        ∧ (∃ its, p.items = some its ∧ its.length = 100)
        ∧ p.nextPageToken ≠ none)
    (hl : lits.length ≤ 100) :
    ∃ cs, getComments (ps ++ [⟨some lits, none, none⟩]) = FetchOutcome.ok cs
      ∧ cs.length = min (100 * ps.length + lits.length) (smallestMultipleGE 100 200) := by
  have hsm : smallestMultipleGE 100 200 = 200 := by decide
  rw [hsm]
  match ps with
  | [] =>
    refine ⟨lits, ?_, ?_⟩
    · simp [getComments, getCommentsLoop]
    · simp only [List.length_nil]
      omega
  | [p] =>
    obtain ⟨he, ⟨its, hits, hlen⟩, htok⟩ := hps p (by simp)
    obtain ⟨tok, htk⟩ := Option.ne_none_iff_exists'.mp htok
    refine ⟨its ++ lits, ?_, ?_⟩
    · simp only [getComments, List.cons_append, List.nil_append, getCommentsLoop,
        he, hits, htk]
      rw [if_pos (by simp [hlen])]
    · simp only [List.length_append, List.length_cons, List.length_nil, hlen]
      omega
  | p :: q :: rest =>
    obtain ⟨hep, ⟨itsp, hitsp, hlenp⟩, htokp⟩ := hps p (by simp)
    obtain ⟨heq, ⟨itsq, hitsq, hlenq⟩, htokq⟩ := hps q (by simp)
    obtain ⟨tokp, htkp⟩ := Option.ne_none_iff_exists'.mp htokp
    obtain ⟨tokq, htkq⟩ := Option.ne_none_iff_exists'.mp htokq
    refine ⟨itsp ++ itsq, ?_, ?_⟩
    · simp only [getComments, List.cons_append, getCommentsLoop, hep, hitsp, htkp]
      rw [if_pos (by simp [hlenp])]
      simp only [getCommentsLoop, heq, hitsq, htkq, List.nil_append]
      rw [if_neg (by simp [hlenp, hlenq])]
    · simp only [List.length_append, List.length_cons, hlenp, hlenq]
      omega

/-- A full scripted page of 100 comments with a continuation token. -/
def fullPage : Page := ⟨some (List.replicate 100 [99]), some (strCU "tok"), none⟩

/-- Witness for C4: one full page of 100 comments followed by a final page
of 50 yields all 150 comments (two pages, no trimming). -/
theorem getComments_pagination_witness :
    ∃ cs, getComments ([fullPage] ++ [⟨some (List.replicate 50 [99]), none, none⟩]) =
        FetchOutcome.ok cs
      ∧ cs.length = min (100 * [fullPage].length +
            (List.replicate 50 ([99] : List Nat)).length)
          (smallestMultipleGE 100 200) := by
  refine getComments_pagination _ _ ?_ ?_
  · intro p hp
    simp only [List.mem_singleton] at hp
    subst hp
    exact ⟨rfl, ⟨List.replicate 100 [99], rfl, by simp⟩, by simp [fullPage]⟩
  · simp

/-! ## C5 — `extractVideoId`: soundness lemmas -/

/-- What a successful capture guarantees: eleven identifier-class units
forming a prefix of the capture's start suffix. -/
theorem tryCapture_some {t r : List Nat} (h : tryCapture t = some r) :
    r.length = 11 ∧ r.all validIdCU = true ∧ r <+: t := by
  simp only [tryCapture] at h
  split at h
  · rename_i hcond
    obtain ⟨h1, h2⟩ := Bool.and_eq_true_iff.mp hcond
    cases h
    exact ⟨beq_iff_eq.mp h1, h2, ⟨t.drop 11, List.take_append_drop 11 t⟩⟩
  · exact absurd h (by simp)

/-- Every success of the `.+\/` backtracking search is a capture from some
suffix of its input. -/
theorem goA1_some {r : List Nat} :
    ∀ (k : Nat) (t : List Nat), goA1 k t = some r →
      ∃ j, tryCapture (t.drop j) = some r := by
  intro k
  induction k with
  | zero => intro t h; exact absurd h (by simp [goA1])
  | succ k ih =>
    intro t h
    unfold goA1 at h
    split at h
    · rename_i r2 hr2
      cases h
      split at hr2
      · exact ⟨k + 2, hr2⟩
      · exact absurd hr2 (by simp)
    · exact ih t h

theorem tryDotSlash_some {t r : List Nat} (h : tryDotSlash t = some r) :
    ∃ j, tryCapture (t.drop j) = some r :=
  goA1_some _ t h

theorem tryA1_some {t r : List Nat} (h : tryA1 t = some r) :
    ∃ j, tryCapture (t.drop j) = some r := by
  simp only [tryA1] at h
  split at h
  · exact absurd h (by simp)
  · split at h
    · obtain ⟨j, hj⟩ := tryDotSlash_some h
      exact ⟨_ + 1 + j, by rw [← List.drop_drop]; exact hj⟩
    · exact absurd h (by simp)

theorem tryA2_some {t r : List Nat} (h : tryA2 t = some r) :
    ∃ j, tryCapture (t.drop j) = some r := by
  unfold tryA2 at h
  split at h
  · rename_i r2 hr2
    cases h
    split at hr2
    · exact ⟨2, hr2⟩
    · exact absurd hr2 (by simp)
  · split at h
    · rename_i r2 hr2
      cases h
      split at hr2
      · exact ⟨6, hr2⟩
      · exact absurd hr2 (by simp)
    · split at h
      · exact ⟨2, h⟩
      · exact absurd h (by simp)

theorem goA3_some {r : List Nat} :
    ∀ (k : Nat) (t : List Nat), goA3 k t = some r →
      ∃ j, tryCapture (t.drop j) = some r := by
  intro k
  induction k with
  | zero =>
    intro t h
    unfold goA3 at h
    split at h
    · exact ⟨3, h⟩
    · exact absurd h (by simp)
  | succ k ih =>
    intro t h
    unfold goA3 at h
    split at h
    · rename_i r2 hr2
      cases h
      split at hr2
      · exact ⟨k + 4, hr2⟩
      · exact absurd hr2 (by simp)
    · exact ih t h

theorem tryA3_some {t r : List Nat} (h : tryA3 t = some r) :
    ∃ j, tryCapture (t.drop j) = some r :=
  goA3_some _ t h

theorem tryYoutube_some {s r : List Nat} (h : tryYoutube s = some r) :
    ∃ j, tryCapture (s.drop j) = some r := by
  simp only [tryYoutube] at h
  split at h
  · have lift : ∀ {j : Nat}, tryCapture ((s.drop 12).drop j) = some r →
        ∃ j2, tryCapture (s.drop j2) = some r := by
      intro j hj
      exact ⟨12 + j, by rw [← List.drop_drop]; exact hj⟩
    split at h
    · rename_i r2 hr2
      cases h
      obtain ⟨j, hj⟩ := tryA1_some hr2
      exact lift hj
    · split at h
      · rename_i r2 hr2
        cases h
        obtain ⟨j, hj⟩ := tryA2_some hr2
        exact lift hj
      · obtain ⟨j, hj⟩ := tryA3_some h
        exact lift hj
  · exact absurd h (by simp)

theorem tryYoutuBe_some {s r : List Nat} (h : tryYoutuBe s = some r) :
    ∃ j, tryCapture (s.drop j) = some r := by
  unfold tryYoutuBe at h
  split at h
  · exact ⟨9, h⟩
  · exact absurd h (by simp)

theorem matchHere_some {s r : List Nat} (h : matchHere s = some r) :
    ∃ j, tryCapture (s.drop j) = some r := by
  unfold matchHere at h
  split at h
  · rename_i r2 hr2
    cases h
    exact tryYoutube_some hr2
  · exact tryYoutuBe_some h

/-- Soundness of the search: whatever `extractVideoId` returns is captured
from a suffix of the input. -/
theorem searchFrom_some {r : List Nat} :
    ∀ {s : List Nat}, searchFrom s = some r →
      ∃ t, t <:+ s ∧ tryCapture t = some r := by
  intro s
  induction s with
  | nil => intro h; exact absurd h (by simp [searchFrom])
  | cons u rest ih =>
    intro h
    unfold searchFrom at h
    split at h
    · rename_i r2 hr2
      cases h
      obtain ⟨j, hj⟩ := matchHere_some hr2
      exact ⟨(u :: rest).drop j, List.drop_suffix j (u :: rest), hj⟩
    · obtain ⟨t, ht, hc⟩ := ih h
      exact ⟨t, ht.trans (List.suffix_cons u rest), hc⟩

/-! ## C5 — `extractVideoId`: the watch-URL shape -/

/-- Identifier-class units are none of the delimiters and none of the line
terminators excluded by `.`. -/
theorem validId_ne {u : Nat} (h : validIdCU u = true) :
    u ≠ 38 ∧ u ≠ 63 ∧ u ≠ 47 ∧ u ≠ 10 ∧ u ≠ 13 ∧ u ≠ 0x2028 ∧ u ≠ 0x2029 := by
  refine ⟨?_, ?_, ?_, ?_, ?_, ?_, ?_⟩ <;>
    (intro heq; rw [heq] at h; exact absurd h (by decide))

theorem validId_dot {u : Nat} (h : validIdCU u = true) : dotCU u = true := by
  obtain ⟨_, _, _, h10, h13, h28, h29⟩ := validId_ne h
  have e10 : (u == 10) = false := beq_eq_false_iff_ne.mpr h10
  have e13 : (u == 13) = false := beq_eq_false_iff_ne.mpr h13
  have e28 : (u == 0x2028) = false := beq_eq_false_iff_ne.mpr h28
  have e29 : (u == 0x2029) = false := beq_eq_false_iff_ne.mpr h29
  simp [dotCU, lineTerm, e10, e13, e28, e29]

/-- The pattern cannot match at a position whose first unit is not `y`:
both domain alternatives begin with `y` (code 121). -/
theorem matchHere_cons_ne {u : Nat} (t : List Nat) (hu : u ≠ 121) :
    matchHere (u :: t) = none := by
  have h1 : u :: t.take 11 ≠ strCU "youtube.com/" := by
    intro hEq
    have h3 : strCU "youtube.com/" = 121 :: strCU "outube.com/" := rfl
    rw [h3, List.cons.injEq] at hEq
    exact hu hEq.1
  have h4 : u :: t.take 8 ≠ strCU "youtu.be/" := by
    intro hEq
    have h6 : strCU "youtu.be/" = 121 :: strCU "outu.be/" := rfl
    rw [h6, List.cons.injEq] at hEq
    exact hu hEq.1
  simp [matchHere, tryYoutube, tryYoutuBe, h1, h4]

/-- The leftmost search skips any prefix containing no `y`. -/
theorem searchFrom_append {pre : List Nat} (s : List Nat)
    (h : ∀ u ∈ pre, u ≠ 121) : searchFrom (pre ++ s) = searchFrom s := by
  induction pre with
  | nil => rfl
  | cons u p ih =>
    have hu := h u (List.mem_cons_self u p)
    have hrest : ∀ v ∈ p, v ≠ 121 := fun v hv => h v (List.mem_cons_of_mem u hv)
    show searchFrom (u :: (p ++ s)) = searchFrom s
    simp [searchFrom, matchHere_cons_ne _ hu, ih hrest]

/-- Evaluation scheme for the `.*[?&]v=` backtracking search: if the
delimiter check succeeds at `k0`, the capture succeeds there, and the check
fails at every later offset up to the starting bound, then the search
returns that capture. -/
theorem goA3_eval {t r : List Nat} (k0 : Nat) :
    ∀ m, k0 ≤ m → chkA3 t k0 = true → tryCapture (t.drop (k0 + 3)) = some r →
      (∀ j, k0 < j → j ≤ m → chkA3 t j = false) → goA3 m t = some r := by
  intro m
  induction m with
  | zero =>
    intro hle hchk hcap _
    have hk : k0 = 0 := Nat.le_zero.mp hle
    subst hk
    simp only [goA3, hchk, if_true]
    exact hcap
  | succ m ih =>
    intro hle hchk hcap hj
    by_cases hk : k0 = m + 1
    · subst hk
      have hcap2 : tryCapture (t.drop (m + 4)) = some r := by
        rw [show m + 4 = m + 1 + 3 by omega]
        exact hcap
      simp [goA3, hchk, hcap2]
    · have hle2 : k0 ≤ m := by omega
      have hfalse : chkA3 t (m + 1) = false := hj (m + 1) (by omega) (Nat.le_refl _)
      simp only [goA3, hfalse, if_false]
      exact ih hle2 hchk hcap fun j h1 h2 => hj j h1 (by omega)

/-- At the `youtube.com/` position of a watch URL, the pattern matches via
its `.*[?&]v=` branch and captures exactly the eleven identifier units. -/
theorem matchHere_watch (id : List Nat) (hlen : id.length = 11)
    (hval : id.all validIdCU = true) :
    matchHere (strCU "youtube.com/" ++ (strCU "watch?v=" ++ id)) = some id := by
  have hvmem : ∀ u ∈ id, validIdCU u = true := List.all_eq_true.mp hval
  have hwlen : (strCU "watch?v=").length = 8 := rfl
  have htlen : (strCU "watch?v=" ++ id).length = 19 := by
    rw [List.length_append, hwlen, hlen]
  have h47 : ∀ u ∈ strCU "watch?v=" ++ id, (u != 47) = true := by
    intro u hu
    rcases List.mem_append.mp hu with h | h
    · exact (by decide : ∀ u ∈ strCU "watch?v=", (u != 47) = true) u h
    · exact bne_iff_ne.mpr (validId_ne (hvmem u h)).2.2.1
  have htw47 : (strCU "watch?v=" ++ id).takeWhile (fun u => u != 47) =
      strCU "watch?v=" ++ id := takeWhile_of_all h47
  have hA1 : tryA1 (strCU "watch?v=" ++ id) = none := by
    simp only [tryA1, htw47, htlen]
    have hnone : (strCU "watch?v=" ++ id)[(19 : Nat)]? = none :=
      List.getElem?_eq_none (by rw [htlen])
    simp [hnone]
  have htk2 : (strCU "watch?v=" ++ id).take 2 = [119, 97] := rfl
  have htk6 : (strCU "watch?v=" ++ id).take 6 = [119, 97, 116, 99, 104, 63] := rfl
  have hA2 : tryA2 (strCU "watch?v=" ++ id) = none := by
    simp [tryA2, htk2, htk6, show strCU "embed/" = [101, 109, 98, 101, 100, 47] from rfl]
  have hdotall : ∀ u ∈ strCU "watch?v=" ++ id, dotCU u = true := by
    intro u hu
    rcases List.mem_append.mp hu with h | h
    · exact (by decide : ∀ u ∈ strCU "watch?v=", dotCU u = true) u h
    · exact validId_dot (hvmem u h)
  have htwdot : (strCU "watch?v=" ++ id).takeWhile dotCU = strCU "watch?v=" ++ id :=
    takeWhile_of_all hdotall
  have hw5 : (strCU "watch?v=" ++ id)[(5 : Nat)]? = some 63 := by
    rw [List.getElem?_append_left (by rw [hwlen]; omega)]
    decide
  have hw6 : (strCU "watch?v=" ++ id)[(6 : Nat)]? = some 118 := by
    rw [List.getElem?_append_left (by rw [hwlen]; omega)]
    decide
  have hw7 : (strCU "watch?v=" ++ id)[(7 : Nat)]? = some 61 := by
    rw [List.getElem?_append_left (by rw [hwlen]; omega)]
    decide
  have hchk5 : chkA3 (strCU "watch?v=" ++ id) 5 = true := by
    simp [chkA3, hw5, hw6, hw7]
  have hdrop8 : (strCU "watch?v=" ++ id).drop 8 = id := rfl
  have hcapid : tryCapture id = some id := by
    simp only [tryCapture]
    rw [List.take_of_length_le (by rw [hlen])]
    simp [hlen, hval]
  have hcap8 : tryCapture ((strCU "watch?v=" ++ id).drop (5 + 3)) = some id := by
    rw [show (5 : Nat) + 3 = 8 from rfl, hdrop8]
    exact hcapid
  have hjfalse : ∀ j, 5 < j → j ≤ 19 → chkA3 (strCU "watch?v=" ++ id) j = false := by
    intro j h5 h19
    have hcase : j = 6 ∨ j = 7 ∨ (8 ≤ j ∧ j ≤ 18) ∨ j = 19 := by omega
    rcases hcase with h | h | ⟨h8, h18⟩ | h
    · subst h; simp [chkA3, hw6]
    · subst h; simp [chkA3, hw7]
    · have hjlt : j - 8 < id.length := by omega
      have hj2 : (strCU "watch?v=" ++ id)[j]? = id[j - 8]? := by
        rw [List.getElem?_append_right (by rw [hwlen]; omega), hwlen]
      have hsome : id[j - 8]? = some (id[j - 8]) := List.getElem?_eq_getElem hjlt
      have hv : validIdCU (id[j - 8]) = true := hvmem _ (List.getElem_mem hjlt)
      obtain ⟨h38, h63, _, _, _, _, _⟩ := validId_ne hv
      have e63 : ((strCU "watch?v=" ++ id)[j]? == some 63) = false := by
        rw [hj2, hsome]
        exact beq_eq_false_iff_ne.mpr fun hs => h63 (Option.some.inj hs)
      have e38 : ((strCU "watch?v=" ++ id)[j]? == some 38) = false := by
        rw [hj2, hsome]
        exact beq_eq_false_iff_ne.mpr fun hs => h38 (Option.some.inj hs)
      simp [chkA3, e63, e38]
    · subst h
      have hnone : (strCU "watch?v=" ++ id)[(19 : Nat)]? = none :=
        List.getElem?_eq_none (by rw [htlen])
      simp [chkA3, hnone]
  have hA3 : tryA3 (strCU "watch?v=" ++ id) = some id := by
    simp only [tryA3, htwdot, htlen]
    exact goA3_eval 5 19 (by omega) hchk5 hcap8 hjfalse
  have hc12 : ((strCU "youtube.com/" ++ (strCU "watch?v=" ++ id)).take 12 ==
      strCU "youtube.com/") = true := by
    rw [List.take_left' (show (strCU "youtube.com/").length = 12 from rfl)]
    exact beq_self_eq_true _
  have hd12 : (strCU "youtube.com/" ++ (strCU "watch?v=" ++ id)).drop 12 =
      strCU "watch?v=" ++ id :=
    List.drop_left' (show (strCU "youtube.com/").length = 12 from rfl)
  simp only [matchHere, tryYoutube, hc12, if_true, hd12, hA1, hA2, hA3]

/-- The capture succeeds on a bare eleven-unit identifier. -/
theorem tryCapture_id {id : List Nat} (hlen : id.length = 11)
    (hval : id.all validIdCU = true) : tryCapture id = some id := by
  simp only [tryCapture]
  rw [List.take_of_length_le (by rw [hlen])]
  simp [hlen, hval]

/-- The `.+\/` backtracking search fails on a list containing no `/`. -/
theorem goA1_no_slash : ∀ (k : Nat) (l : List Nat), (∀ u ∈ l, u ≠ 47) →
    goA1 k l = none := by
  intro k
  induction k with
  | zero => intro l _; rfl
  | succ k ih =>
    intro l h
    have hfalse : (l[k + 1]? == some 47) = false := by
      cases hg : l[k + 1]? with
      | none => rfl
      | some u =>
        exact beq_eq_false_iff_ne.mpr
          fun hs => h u (List.getElem?_mem hg) (Option.some.inj hs)
    simp [goA1, hfalse, ih l h]

theorem tryDotSlash_id {id : List Nat} (h47 : ∀ u ∈ id, u ≠ 47) :
    tryDotSlash id = none :=
  goA1_no_slash _ id h47

/-- At the `youtu.be/` position of a shortened-domain URL the pattern
matches via its second alternative and captures the identifier. -/
theorem matchHere_youtuBe (id : List Nat) (hlen : id.length = 11)
    (hval : id.all validIdCU = true) :
    matchHere (strCU "youtu.be/" ++ id) = some id := by
  have hne12 : ((strCU "youtu.be/" ++ id).take 12 == strCU "youtube.com/") = false := by
    have h12 : (strCU "youtu.be/" ++ id).take 12 =
        [121, 111, 117, 116, 117, 46, 98, 101, 47] ++ id.take 3 := rfl
    rw [h12]
    refine beq_eq_false_iff_ne.mpr fun hEq => ?_
    rw [show strCU "youtube.com/" =
        [121, 111, 117, 116, 117, 98, 101, 46, 99, 111, 109, 47] from rfl] at hEq
    simp at hEq
  have ht9 : ((strCU "youtu.be/" ++ id).take 9 == strCU "youtu.be/") = true := by
    rw [List.take_left' (show (strCU "youtu.be/").length = 9 from rfl)]
    exact beq_self_eq_true _
  have hd9 : (strCU "youtu.be/" ++ id).drop 9 = id :=
    List.drop_left' (show (strCU "youtu.be/").length = 9 from rfl)
  simp [matchHere, tryYoutube, tryYoutuBe, hne12, ht9, hd9, tryCapture_id hlen hval]

/-- At the `youtube.com/` position of an `embed/` path URL the pattern
matches via the `(?:v|e(?:mbed)?)\/` branch and captures the identifier. -/
theorem matchHere_embed (id : List Nat) (hlen : id.length = 11)
    (hval : id.all validIdCU = true) :
    matchHere (strCU "youtube.com/" ++ (strCU "embed/" ++ id)) = some id := by
  have h47 : ∀ u ∈ id, u ≠ 47 :=
    fun u hu => (validId_ne (List.all_eq_true.mp hval u hu)).2.2.1
  have hc12 : ((strCU "youtube.com/" ++ (strCU "embed/" ++ id)).take 12 ==
      strCU "youtube.com/") = true := by
    rw [List.take_left' (show (strCU "youtube.com/").length = 12 from rfl)]
    exact beq_self_eq_true _
  have hd12 : (strCU "youtube.com/" ++ (strCU "embed/" ++ id)).drop 12 =
      strCU "embed/" ++ id :=
    List.drop_left' (show (strCU "youtube.com/").length = 12 from rfl)
  have htw : (strCU "embed/" ++ id).takeWhile (fun u => u != 47) =
      [101, 109, 98, 101, 100] := rfl
  have ht5 : (strCU "embed/" ++ id)[(5 : Nat)]? = some 47 := by
    rw [List.getElem?_append_left (show (5 : Nat) < (strCU "embed/").length from by decide)]
    decide
  have hdrop6 : (strCU "embed/" ++ id).drop 6 = id := rfl
  have hA1 : tryA1 (strCU "embed/" ++ id) = none := by
    simp only [tryA1, htw]
    simp [ht5, hdrop6, tryDotSlash_id h47]
  have hA2 : tryA2 (strCU "embed/" ++ id) = some id := by
    have ht2 : (strCU "embed/" ++ id).take 2 = [101, 109] := rfl
    have ht6 : (strCU "embed/" ++ id).take 6 = strCU "embed/" := rfl
    simp [tryA2, ht2, ht6, hdrop6, tryCapture_id hlen hval]
  simp [matchHere, tryYoutube, hc12, hd12, hA1, hA2]

/-- At the `youtube.com/` position of a `v/` path URL the pattern matches
via the `(?:v|e(?:mbed)?)\/` branch and captures the identifier. -/
theorem matchHere_vPath (id : List Nat) (hlen : id.length = 11)
    (hval : id.all validIdCU = true) :
    matchHere (strCU "youtube.com/" ++ (strCU "v/" ++ id)) = some id := by
  have h47 : ∀ u ∈ id, u ≠ 47 :=
    fun u hu => (validId_ne (List.all_eq_true.mp hval u hu)).2.2.1
  have hc12 : ((strCU "youtube.com/" ++ (strCU "v/" ++ id)).take 12 ==
      strCU "youtube.com/") = true := by
    rw [List.take_left' (show (strCU "youtube.com/").length = 12 from rfl)]
    exact beq_self_eq_true _
  have hd12 : (strCU "youtube.com/" ++ (strCU "v/" ++ id)).drop 12 =
      strCU "v/" ++ id :=
    List.drop_left' (show (strCU "youtube.com/").length = 12 from rfl)
  have htw : (strCU "v/" ++ id).takeWhile (fun u => u != 47) = [118] := rfl
  have ht1 : (strCU "v/" ++ id)[(1 : Nat)]? = some 47 := by
    rw [List.getElem?_append_left (show (1 : Nat) < (strCU "v/").length from by decide)]
    decide
  have hdrop2 : (strCU "v/" ++ id).drop 2 = id := rfl
  have hA1 : tryA1 (strCU "v/" ++ id) = none := by
    simp only [tryA1, htw]
    simp [ht1, hdrop2, tryDotSlash_id h47]
  have hA2 : tryA2 (strCU "v/" ++ id) = some id := by
    have ht2 : (strCU "v/" ++ id).take 2 = [118, 47] := rfl
    simp [tryA2, ht2, hdrop2, tryCapture_id hlen hval]
  simp [matchHere, tryYoutube, hc12, hd12, hA1, hA2]

/-- At the `youtube.com/` position of an `e/` path URL the pattern matches
via the `(?:v|e(?:mbed)?)\/` branch (the bare `e` alternative) and captures
the identifier. -/
theorem matchHere_ePath (id : List Nat) (hlen : id.length = 11)
    (hval : id.all validIdCU = true) :
    matchHere (strCU "youtube.com/" ++ (strCU "e/" ++ id)) = some id := by
  have h47 : ∀ u ∈ id, u ≠ 47 :=
    fun u hu => (validId_ne (List.all_eq_true.mp hval u hu)).2.2.1
  have hc12 : ((strCU "youtube.com/" ++ (strCU "e/" ++ id)).take 12 ==
      strCU "youtube.com/") = true := by
    rw [List.take_left' (show (strCU "youtube.com/").length = 12 from rfl)]
    exact beq_self_eq_true _
  have hd12 : (strCU "youtube.com/" ++ (strCU "e/" ++ id)).drop 12 =
      strCU "e/" ++ id :=
    List.drop_left' (show (strCU "youtube.com/").length = 12 from rfl)
  have htw : (strCU "e/" ++ id).takeWhile (fun u => u != 47) = [101] := rfl
  have ht1 : (strCU "e/" ++ id)[(1 : Nat)]? = some 47 := by
    rw [List.getElem?_append_left (show (1 : Nat) < (strCU "e/").length from by decide)]
    decide
  have hdrop2 : (strCU "e/" ++ id).drop 2 = id := rfl
  have hA1 : tryA1 (strCU "e/" ++ id) = none := by
    simp only [tryA1, htw]
    simp [ht1, hdrop2, tryDotSlash_id h47]
  have hA2 : tryA2 (strCU "e/" ++ id) = some id := by
    have ht2 : (strCU "e/" ++ id).take 2 = [101, 47] := rfl
    have ht6 : (strCU "e/" ++ id).take 6 = 101 :: 47 :: id.take 4 := rfl
    have hne6 : ((101 :: 47 :: id.take 4 : List Nat) == strCU "embed/") = false := by
      refine beq_eq_false_iff_ne.mpr fun hEq => ?_
      rw [show strCU "embed/" = [101, 109, 98, 101, 100, 47] from rfl] at hEq
      simp at hEq
    simp [tryA2, ht2, ht6, hne6, hdrop2, tryCapture_id hlen hval]
  simp [matchHere, tryYoutube, hc12, hd12, hA1, hA2]

/-- The leftmost search over a `y`-free prefix followed by a matching
position returns that position's capture. -/
theorem searchFrom_prefix (pre rest id : List Nat)
    (hpre : ∀ u ∈ pre, u ≠ 121)
    (hm : matchHere (121 :: (rest ++ id)) = some id) :
    searchFrom (pre ++ (121 :: (rest ++ id))) = some id := by
  rw [searchFrom_append _ hpre]
  simp [searchFrom, hm]

/-- C5: `extractVideoId` (i) returns exactly the eleven-unit identifier
segment for every recognized URL shape — watch URLs with a `v` query
parameter, shortened-domain (`youtu.be`) URLs, and `embed`/`v`/`e` path
URLs; (ii) returns the not-found signal on an input with no identifier
segment (e.g. `not a url`); and (iii) is sound: whatever it returns is an
eleven-unit segment of the input drawn from the identifier alphabet, so an
input containing no such segment always yields the not-found signal. -/
theorem extractVideoId_spec :
    (∀ id : List Nat, id.length = 11 → id.all validIdCU = true →
        extractVideoId (strCU "https://www.youtube.com/watch?v=" ++ id) = some id
        ∧ extractVideoId (strCU "https://youtu.be/" ++ id) = some id
        ∧ extractVideoId (strCU "https://www.youtube.com/embed/" ++ id) = some id
        ∧ extractVideoId (strCU "https://www.youtube.com/v/" ++ id) = some id
        ∧ extractVideoId (strCU "https://www.youtube.com/e/" ++ id) = some id)
    ∧ extractVideoId (strCU "not a url") = none
    ∧ (∀ s r : List Nat, extractVideoId s = some r →
        r.length = 11 ∧ r.all validIdCU = true ∧ r <:+: s) := by
  refine ⟨?_, by decide, ?_⟩
  · intro id hlen hval
    refine ⟨?_, ?_, ?_, ?_, ?_⟩
    · show searchFrom (strCU "https://www." ++
          (121 :: (strCU "outube.com/watch?v=" ++ id))) = some id
      exact searchFrom_prefix _ _ _ (by decide) (matchHere_watch id hlen hval)
    · show searchFrom (strCU "https://" ++
          (121 :: (strCU "outu.be/" ++ id))) = some id
      exact searchFrom_prefix _ _ _ (by decide) (matchHere_youtuBe id hlen hval)
    · show searchFrom (strCU "https://www." ++
          (121 :: (strCU "outube.com/embed/" ++ id))) = some id
      exact searchFrom_prefix _ _ _ (by decide) (matchHere_embed id hlen hval)
    · show searchFrom (strCU "https://www." ++
          (121 :: (strCU "outube.com/v/" ++ id))) = some id
      exact searchFrom_prefix _ _ _ (by decide) (matchHere_vPath id hlen hval)
    · show searchFrom (strCU "https://www." ++
          (121 :: (strCU "outube.com/e/" ++ id))) = some id
      exact searchFrom_prefix _ _ _ (by decide) (matchHere_ePath id hlen hval)
  · intro s r h
    obtain ⟨t, hts, hc⟩ := searchFrom_some h
    obtain ⟨hl, hv, hpre⟩ := tryCapture_some hc
    exact ⟨hl, hv, hpre.isInfix.trans hts.isInfix⟩

/-- Witness for C5 at the spec's own example identifier, across all five
recognized shapes. -/
theorem extractVideoId_spec_witness :
    extractVideoId (strCU "https://www.youtube.com/watch?v=" ++ strCU "dQw4w9WgXcQ") =
      some (strCU "dQw4w9WgXcQ")
    ∧ extractVideoId (strCU "https://youtu.be/" ++ strCU "dQw4w9WgXcQ") =
      some (strCU "dQw4w9WgXcQ")
    ∧ extractVideoId (strCU "https://www.youtube.com/embed/" ++ strCU "dQw4w9WgXcQ") =
      some (strCU "dQw4w9WgXcQ")
    ∧ extractVideoId (strCU "https://www.youtube.com/v/" ++ strCU "dQw4w9WgXcQ") =
      some (strCU "dQw4w9WgXcQ")
    ∧ extractVideoId (strCU "https://www.youtube.com/e/" ++ strCU "dQw4w9WgXcQ") =
      some (strCU "dQw4w9WgXcQ") :=
  extractVideoId_spec.1 (strCU "dQw4w9WgXcQ") (by decide) (by decide)

end StanceScope

section ScratchChecks

open StanceScope

example : rewriteName (strCU "意見1を支持") = strCU "意見 A" := by decide
example : rewriteName (strCU "意見2を支持") = strCU "意見 B" := by decide
example : rewriteName (strCU "中立/その他") = strCU "中立/その他" := by decide
example : rewriteName (strCU "意見 A") = strCU "意見 A" := by decide
example : rewriteName (strCU "意見12を支持") = strCU "意見 L" := by decide

example :
    extractVideoId (strCU "https://www.youtube.com/watch?v=dQw4w9WgXcQ") =
      some (strCU "dQw4w9WgXcQ") := by decide

example : extractVideoId (strCU "not a url") = none := by decide

example :
    extractVideoId (strCU "https://youtu.be/dQw4w9WgXcQ") =
      some (strCU "dQw4w9WgXcQ") := by decide

example :
    extractVideoId (strCU "https://www.youtube.com/embed/dQw4w9WgXcQ") =
      some (strCU "dQw4w9WgXcQ") := by decide

example :
    extractVideoId (strCU "https://www.youtube.com/v/dQw4w9WgXcQ") =
      some (strCU "dQw4w9WgXcQ") := by decide

example :
    extractVideoId (strCU "youtube.com/user/abc/dQw4w9WgXcQ") =
      some (strCU "dQw4w9WgXcQ") := by decide

example : extractVideoId (strCU "https://www.youtube.com/watch?v=short") = none := by
  decide

end ScratchChecks
